import Mathlib

/-!
Shallow embedding of the work-stealing task scheduler from
`src/system_scheduler/system_scheduler.hpp` and
`src/system_scheduler/system_scheduler.cpp`.

Tasks (`std::function<void()>`) are modelled by an opaque type `α` with an
`Inhabited` instance standing for the default-constructed (null) function.
The atomic `int` indices `top` and `bottom` are modelled as `Int` (C++ `int`),
and buffer indexing `x % cap` uses `Int.tmod`, the C++ truncated remainder.
The embedding is sequential: each operation runs to completion without
interference, so a compare-and-swap reads the value that was just loaded.
-/

namespace Execution

/-- compare_exchange_strong on an atomic holding `current`: succeeds and
stores `desired` iff `current = expected`.  Returns the flag and the value
held by the atomic afterwards. -/
def cas_result (current expected desired : Int) : Bool × Int :=
  if current = expected then (true, desired) else (false, current)

/-- `lock_free_deque` (system_scheduler.hpp lines 22-143): a circular buffer
of `capacity` slots with owner indices `top`/`bottom`. -/
structure lock_free_deque (α : Type) where
  capacity : Int
  buffer : List α
  top : Int
  bottom : Int

/-- DEFAULT_CAPACITY = 1024 (hpp line 121). -/
def DEFAULT_CAPACITY : Int := 1024

/-- The default constructor (hpp lines 24-27): capacity 1024, buffer resized
to capacity with default-constructed slots, `top = bottom = 0`. -/
def initDeque (α : Type) [Inhabited α] : lock_free_deque α :=
  { capacity := DEFAULT_CAPACITY
    buffer := List.replicate DEFAULT_CAPACITY.toNat default
    top := 0
    bottom := 0 }

/-- `resize` (hpp lines 127-142): double the capacity, copy the live slots
`i ∈ [top, bottom)` into the new buffer at `i % new_capacity`. -/
def lock_free_deque.resize {α : Type} [Inhabited α] (d : lock_free_deque α) :
    lock_free_deque α :=
  let old_capacity := d.capacity
  let new_capacity := old_capacity * 2
  let base := List.replicate new_capacity.toNat (default : α)
  let t := d.top
  let b := d.bottom
  let new_buffer := (List.range (b - t).toNat).foldl
    (fun buf j =>
      buf.set ((t + (j : Int)).tmod new_capacity).toNat
        (d.buffer.getD (((t + (j : Int)).tmod old_capacity).toNat) default))
    base
  { d with buffer := new_buffer, capacity := new_capacity }

/-- `push` (hpp lines 57-71): owner-side push at the bottom end; grows the
buffer when `bottom - top ≥ capacity`. -/
def lock_free_deque.push {α : Type} [Inhabited α] (d : lock_free_deque α)
    (task : α) : lock_free_deque α :=
  let b := d.bottom
  let t := d.top
  let size := b - t
  let cap := d.capacity
  let d1 := if size ≥ cap then d.resize else d
  let b1 := d1.bottom
  let cap1 := d1.capacity
  { d1 with
    buffer := d1.buffer.set ((b1.tmod cap1).toNat) task
    bottom := b1 + 1 }

/-- `pop` (hpp lines 73-93): owner-side pop at the bottom end.  Decrement
`bottom`, read `top`; on `t ≤ b` take slot `b % cap`, resolving the
last-element race (`t = b`) with a CAS on `top`; on `t > b` restore `bottom`
and fail.  Note: on a successful last-element CAS the code returns with
`bottom = b` left as is (it does not restore `bottom = b + 1`). -/
def lock_free_deque.pop {α : Type} [Inhabited α] (d : lock_free_deque α) :
    Option α × lock_free_deque α :=
  let b := d.bottom - 1
  let d1 : lock_free_deque α := { d with bottom := b }
  let t := d1.top
  let cap := d1.capacity
  if t ≤ b then
    let task := d1.buffer.getD ((b.tmod cap).toNat) default
    if t = b then
      let r := cas_result d1.top t (t + 1)
      if r.1 then
        (some task, { d1 with top := r.2 })
      else
        (none, { d1 with top := r.2, bottom := b + 1 })
    else
      (some task, d1)
  else
    (none, { d1 with bottom := b + 1 })

/-- `steal` (hpp lines 95-106): thief-side take at the top end.  If
`top < bottom`, read slot `top % cap` and commit by a CAS of `top` to
`top + 1`; otherwise (or on CAS failure) return empty without writing. -/
def lock_free_deque.steal {α : Type} [Inhabited α] (d : lock_free_deque α) :
    Option α × lock_free_deque α :=
  let t := d.top
  let b := d.bottom
  let cap := d.capacity
  if t < b then
    let task := d.buffer.getD ((t.tmod cap).toNat) default
    let r := cas_result d.top t (t + 1)
    if r.1 then (some task, { d with top := r.2 })
    else (none, d)
  else
    (none, d)

/-- `empty` (hpp lines 108-112): `top ≥ bottom`. -/
def lock_free_deque.empty {α : Type} (d : lock_free_deque α) : Bool :=
  d.top ≥ d.bottom

/-- `size` (hpp lines 114-118): `bottom - top` clamped at zero. -/
def lock_free_deque.size {α : Type} (d : lock_free_deque α) : Nat :=
  if d.bottom ≥ d.top then (d.bottom - d.top).toNat else 0

/-- `priority_t` (hpp lines 145-150). -/
inductive priority_t where
  | LOW
  | NORMAL
  | HIGH
  | CRITICAL
deriving DecidableEq, Repr

/-- static_cast<int>(priority): LOW = 0, NORMAL = 1, HIGH = 2, CRITICAL = 3,
used to index the four sub-deques. -/
def priority_t.toFin : priority_t → Fin 4
  | .LOW => 0
  | .NORMAL => 1
  | .HIGH => 2
  | .CRITICAL => 3

/-- `work_queue_t` (hpp lines 153-206): one deque per priority plus an
`active` flag.  The C++ vector always holds exactly
`static_cast<size_t>(priority_t::CRITICAL) + 1 = 4` deques, modelled as a
function out of `Fin 4`. -/
structure work_queue_t (α : Type) where
  task_queues : Fin 4 → lock_free_deque α
  active : Bool

/-- The `work_queue_t` constructor (hpp lines 157-161): four fresh deques,
`active = true`. -/
def initWorkQueue (α : Type) [Inhabited α] : work_queue_t α :=
  { task_queues := fun _ => initDeque α, active := true }

/-- `push_task` (hpp lines 174-176): delegate to the deque for `prio`. -/
def work_queue_t.push_task {α : Type} [Inhabited α] (q : work_queue_t α)
    (prio : Fin 4) (task : α) : work_queue_t α :=
  { q with task_queues :=
      Function.update q.task_queues prio ((q.task_queues prio).push task) }

/-- Write back sub-deque `p` of a work queue (the in-place mutation of
`task_queues[p]` performed by the C++ scan loop). -/
def update_queue {α : Type} (q : work_queue_t α) (p : Fin 4)
    (d : lock_free_deque α) : work_queue_t α :=
  { q with task_queues := Function.update q.task_queues p d }

/-- The scan loop shared by `pop_task` and `steal_task`: try each priority in
the given order, returning the first successful take and the updated queue. -/
def work_queue_t.scanTake {α : Type}
    (take : lock_free_deque α → Option α × lock_free_deque α) :
    work_queue_t α → List (Fin 4) → Option α × work_queue_t α
  | q, [] => (none, q)
  | q, p :: ps =>
    match take (q.task_queues p) with
    | (some task, d) => (some task, update_queue q p d)
    | (none, d) => work_queue_t.scanTake take (update_queue q p d) ps

/-- `pop_task` (hpp lines 178-183): scan `p = CRITICAL, HIGH, NORMAL, LOW`
and return the first successful `pop`. -/
def work_queue_t.pop_task {α : Type} [Inhabited α] (q : work_queue_t α) :
    Option α × work_queue_t α :=
  work_queue_t.scanTake lock_free_deque.pop q [3, 2, 1, 0]

/-- `steal_task` (hpp lines 185-190): the same high-to-low scan with `steal`. -/
def work_queue_t.steal_task {α : Type} [Inhabited α] (q : work_queue_t α) :
    Option α × work_queue_t α :=
  work_queue_t.scanTake lock_free_deque.steal q [3, 2, 1, 0]

/-- `work_queue_t::empty` (hpp lines 192-197): every sub-deque is empty. -/
def work_queue_t.empty {α : Type} (q : work_queue_t α) : Bool :=
  (List.finRange 4).all fun p => (q.task_queues p).empty

/-- `work_queue_t::size` (hpp lines 199-205): sum of the sub-deque sizes. -/
def work_queue_t.size {α : Type} (q : work_queue_t α) : Nat :=
  ((List.finRange 4).map fun p => (q.task_queues p).size).sum

/-- `system_scheduler` state (hpp lines 208-254).  Worker threads, the
condition variable and the NUMA node table carry no task-visible state and
are not modelled; `next_queue` and `num_queues` are `size_t` counters
(wrap-around modulo `2 ^ 64` is applied where the code increments them). -/
structure system_scheduler (α : Type) where
  priority_level : priority_t
  work_queues : List (work_queue_t α)
  stop_flag : Bool
  idle_count : Nat
  active_thread_count : Nat
  min_threads : Nat
  max_threads : Nat
  next_queue : Nat
  num_queues : Nat

/-- The constructor (system_scheduler.cpp lines 32-57):
`init_threads = thread_count` if non-zero else `hardware_concurrency()`;
one work queue per worker; counters initialised. -/
def mk_scheduler (α : Type) [Inhabited α] (hardware_concurrency : Nat)
    (priority : priority_t) (thread_count : Nat) : system_scheduler α :=
  let init_threads :=
    if thread_count > 0 then thread_count else hardware_concurrency
  { priority_level := priority
    work_queues := List.replicate init_threads (initWorkQueue α)
    stop_flag := false
    idle_count := 0
    active_thread_count := init_threads
    min_threads := init_threads
    max_threads := init_threads
    next_queue := 0
    num_queues := init_threads }

/-- `operator==` (cpp lines 69-71): unconditionally `true`. -/
def scheduler_beq {α : Type} (_a _b : system_scheduler α) : Bool :=
  true

/-- `get_priority` (cpp lines 73-75). -/
def system_scheduler.get_priority {α : Type} (s : system_scheduler α) :
    priority_t :=
  s.priority_level

/-- `set_priority` (cpp lines 77-79). -/
def system_scheduler.set_priority {α : Type} (s : system_scheduler α)
    (priority : priority_t) : system_scheduler α :=
  { s with priority_level := priority }

/-- `get_active_thread_count` (hpp lines 233-235). -/
def system_scheduler.get_active_thread_count {α : Type}
    (s : system_scheduler α) : Nat :=
  s.active_thread_count

/-- `set_stopped` (cpp lines 190-193): set the stop flag (the log line has no
task-visible effect). -/
def system_scheduler.set_stopped {α : Type} (s : system_scheduler α) :
    system_scheduler α :=
  { s with stop_flag := true }

/-- `set_error` (cpp lines 182-188): only logs; the scheduler state is
untouched. -/
def system_scheduler.set_error {α : Type} (s : system_scheduler α) :
    system_scheduler α :=
  s

/-- The while loop in `schedule` (cpp lines 87-89): advance `chosen` by
`(chosen + 1) % num` until an active queue is found.  The C++ loop never
terminates when no reachable queue is active; fuel `num` suffices to visit
every residue, so exhausting `num + 1` probes (the initial probe plus `num`
advances) models divergence as `none`. -/
def find_active {α : Type} [Inhabited α] (qs : List (work_queue_t α))
    (num : Nat) : Nat → Nat → Option Nat
  | _, 0 => none
  | chosen, fuel + 1 =>
    if (qs.getD chosen (initWorkQueue α)).active then some chosen
    else find_active qs num ((chosen + 1) % num) fuel

/-- `schedule` (cpp lines 81-91): drop the task if the stop flag is set,
otherwise fetch-add `next_queue`, take it modulo `num_queues`, skip inactive
queues, and push at the given priority.  `none` models the (unreachable in
normal use) divergence of the inactive-queue loop. -/
def system_scheduler.schedule {α : Type} [Inhabited α]
    (s : system_scheduler α) (task : α) (priority : priority_t) :
    Option (system_scheduler α) :=
  if s.stop_flag then some s
  else
    let num := s.num_queues
    let start := s.next_queue % num
    let s1 : system_scheduler α :=
      { s with next_queue := (s.next_queue + 1) % 2 ^ 64 }
    match find_active s.work_queues num start (num + 1) with
    | none => none
    | some chosen =>
        some { s1 with
          work_queues := s1.work_queues.set chosen
            ((s1.work_queues.getD chosen (initWorkQueue α)).push_task
              priority.toFin task) }

/-- A `schedule` call that omits the priority argument: the declaration
(hpp line 222) supplies the default argument `priority_t::NORMAL`. -/
def system_scheduler.schedule_default {α : Type} [Inhabited α]
    (s : system_scheduler α) (task : α) : Option (system_scheduler α) :=
  s.schedule task priority_t.NORMAL

/-- `num_chunks` in `bulk_schedule` (cpp lines 95-96):
`max(active_threads * 8, n)` in `uint32_t` arithmetic, bumped to 1 if zero. -/
def num_chunks (active_threads n : Nat) : Nat :=
  let m := max ((active_threads * 8) % 2 ^ 32) n
  if m = 0 then 1 else m

/-- `start` of chunk `k` (cpp line 101): `chunk * chunk_size + min(chunk,
remainder)` with `chunk_size = n / num_chunks`, `remainder = n % num_chunks`. -/
def chunk_start (n numc k : Nat) : Nat :=
  k * (n / numc) + min k (n % numc)

/-- `end` of chunk `k` (cpp line 102):
`start + chunk_size + (chunk < remainder ? 1 : 0)`. -/
def chunk_end (n numc k : Nat) : Nat :=
  chunk_start n numc k + n / numc + (if k < n % numc then 1 else 0)

/-- The indices the chunk-`k` closure iterates (cpp lines 104-108):
`for (i = start; i < end; ++i) task(i)`. -/
def chunk_indices (n numc k : Nat) : List Nat :=
  List.range' (chunk_start n numc k) (chunk_end n numc k - chunk_start n numc k)

/-- All chunks of `bulk_schedule` (cpp lines 100-110), each represented by
the ascending list of indices its closure invokes the task at. -/
def bulk_chunks (active_threads n : Nat) : List (List Nat) :=
  (List.range (num_chunks active_threads n)).map
    (chunk_indices n (num_chunks active_threads n))

/-- The chunks actually submitted: the loop only submits when
`start < end` (cpp line 103), that is, when the chunk is non-empty. -/
def bulk_submitted (active_threads n : Nat) : List (List Nat) :=
  (bulk_chunks active_threads n).filter fun c => !c.isEmpty

/-- `bulk_schedule` (cpp lines 93-111) acting on the scheduler state: one
`schedule` call per non-empty chunk.  `mkTask start end` stands for the
closure capturing that chunk's bounds. -/
def system_scheduler.bulk_schedule {α : Type} [Inhabited α]
    (s : system_scheduler α) (n : Nat) (mkTask : Nat → Nat → α)
    (priority : priority_t) : Option (system_scheduler α) :=
  let numc := num_chunks s.active_thread_count n
  (List.range numc).foldlM
    (fun st chunk =>
      if chunk_start n numc chunk < chunk_end n numc chunk then
        st.schedule (mkTask (chunk_start n numc chunk) (chunk_end n numc chunk))
          priority
      else
        pure st)
    s

/-- A submitter-side run: `schedule` each task of the list in turn at the
given priority. -/
def scheduleAll {α : Type} [Inhabited α] (s : system_scheduler α)
    (tasks : List α) (priority : priority_t) : Option (system_scheduler α) :=
  tasks.foldlM (fun st t => st.schedule t priority) s

/-- The state-changing operations of the scheduler's interface, including
the queue accesses a worker performs in `worker_loop` (cpp lines 113-166):
popping its own queue and stealing from a peer's. -/
inductive SchedOp (α : Type) where
  | sched : α → priority_t → SchedOp α
  | bulk : Nat → (Nat → Nat → α) → priority_t → SchedOp α
  | setPriority : priority_t → SchedOp α
  | setStopped : SchedOp α
  | setError : SchedOp α
  | workerPop : Nat → SchedOp α
  | workerSteal : Nat → SchedOp α

/-- Apply one operation to the scheduler state. -/
def applyOp {α : Type} [Inhabited α] (s : system_scheduler α) :
    SchedOp α → Option (system_scheduler α)
  | .sched t p => s.schedule t p
  | .bulk n mk p => s.bulk_schedule n mk p
  | .setPriority p => some (s.set_priority p)
  | .setStopped => some s.set_stopped
  | .setError => some s.set_error
  | .workerPop i =>
      some { s with work_queues :=
        s.work_queues.set i ((s.work_queues.getD i (initWorkQueue α)).pop_task).2 }
  | .workerSteal i =>
      some { s with work_queues :=
        s.work_queues.set i ((s.work_queues.getD i (initWorkQueue α)).steal_task).2 }

/-- Run a sequence of interface operations. -/
def runOps {α : Type} [Inhabited α] (s : system_scheduler α)
    (ops : List (SchedOp α)) : Option (system_scheduler α) :=
  ops.foldlM applyOp s

/-- Number of `j < len` with `(c + j) % N = i`: how many of the round-robin
tickets `c, c + 1, …, c + len - 1` select queue `i` out of `N`. -/
def hitCount (c N i : Nat) : Nat → Nat
  | 0 => 0
  | j + 1 => hitCount c N i j + (if (c + j) % N = i then 1 else 0)

/-! ### Deque lemmas -/

theorem pop_fst_none_iff {α : Type} [Inhabited α] (d : lock_free_deque α) :
    (d.pop).1 = none ↔ d.bottom ≤ d.top := by
  obtain ⟨cap, buf, t, b⟩ := d
  simp only [lock_free_deque.pop, cas_result]
  split_ifs with h1 h2 h3 <;> simp_all <;> omega

theorem pop_none_state {α : Type} [Inhabited α] (d : lock_free_deque α)
    (h : (d.pop).1 = none) : (d.pop).2 = d := by
  obtain ⟨cap, buf, t, b⟩ := d
  simp only [lock_free_deque.pop, cas_result] at h ⊢
  split_ifs with h1 h2 h3 <;> simp_all

theorem pop_some_of_pos {α : Type} [Inhabited α] (d : lock_free_deque α)
    (h : 0 < d.bottom - d.top) : ∃ a, (d.pop).1 = some a := by
  rcases he : (d.pop).1 with _ | a
  · rw [pop_fst_none_iff] at he
    omega
  · exact ⟨a, rfl⟩

theorem steal_fst_none_iff {α : Type} [Inhabited α] (d : lock_free_deque α) :
    (d.steal).1 = none ↔ d.bottom ≤ d.top := by
  obtain ⟨cap, buf, t, b⟩ := d
  simp only [lock_free_deque.steal, cas_result]
  split_ifs with h1 <;> simp_all

theorem steal_none_state {α : Type} [Inhabited α] (d : lock_free_deque α)
    (h : (d.steal).1 = none) : (d.steal).2 = d := by
  obtain ⟨cap, buf, t, b⟩ := d
  simp only [lock_free_deque.steal, cas_result] at h ⊢
  split_ifs with h1 <;> simp_all

theorem steal_some_state {α : Type} [Inhabited α] (d : lock_free_deque α)
    (a : α) (h : (d.steal).1 = some a) :
    (d.steal).2 = { d with top := d.top + 1 } := by
  obtain ⟨cap, buf, t, b⟩ := d
  simp only [lock_free_deque.steal, cas_result] at h ⊢
  split_ifs with h1 <;> simp_all

theorem steal_some_of_pos {α : Type} [Inhabited α] (d : lock_free_deque α)
    (h : 0 < d.bottom - d.top) : ∃ a, (d.steal).1 = some a := by
  rcases he : (d.steal).1 with _ | a
  · rw [steal_fst_none_iff] at he
    omega
  · exact ⟨a, rfl⟩

/-! ### Priority-scan lemmas for `pop_task` / `steal_task` -/

theorem scanTake_cons_some {α : Type}
    (tk : lock_free_deque α → Option α × lock_free_deque α)
    (q : work_queue_t α) (p : Fin 4) (ps : List (Fin 4)) (a : α)
    (h : (tk (q.task_queues p)).1 = some a) :
    work_queue_t.scanTake tk q (p :: ps) =
      (some a, update_queue q p (tk (q.task_queues p)).2) := by
  have h2 : tk (q.task_queues p) = (some a, (tk (q.task_queues p)).2) := by
    rcases he : tk (q.task_queues p) with ⟨o, dd⟩
    simp_all
  simp only [work_queue_t.scanTake]
  rw [h2]

theorem scanTake_cons_none {α : Type}
    (tk : lock_free_deque α → Option α × lock_free_deque α)
    (q : work_queue_t α) (p : Fin 4) (ps : List (Fin 4))
    (h : (tk (q.task_queues p)).1 = none)
    (hs : (tk (q.task_queues p)).2 = q.task_queues p) :
    work_queue_t.scanTake tk q (p :: ps) = work_queue_t.scanTake tk q ps := by
  have h2 : tk (q.task_queues p) = (none, q.task_queues p) := by
    rcases he : tk (q.task_queues p) with ⟨o, dd⟩
    simp_all
  simp only [work_queue_t.scanTake]
  rw [h2]
  simp [update_queue, Function.update_eq_self]

theorem pop_task_all_none {α : Type} [Inhabited α] (q : work_queue_t α)
    (h3 : ((q.task_queues 3).pop).1 = none)
    (h2 : ((q.task_queues 2).pop).1 = none)
    (h1 : ((q.task_queues 1).pop).1 = none)
    (h0 : ((q.task_queues 0).pop).1 = none) :
    q.pop_task = (none, q) := by
  unfold work_queue_t.pop_task
  rw [scanTake_cons_none _ _ _ _ h3 (pop_none_state _ h3),
    scanTake_cons_none _ _ _ _ h2 (pop_none_state _ h2),
    scanTake_cons_none _ _ _ _ h1 (pop_none_state _ h1),
    scanTake_cons_none _ _ _ _ h0 (pop_none_state _ h0)]
  rfl

theorem pop_task_at3 {α : Type} [Inhabited α] (q : work_queue_t α) (a : α)
    (h3 : ((q.task_queues 3).pop).1 = some a) :
    q.pop_task = (some a, update_queue q 3 ((q.task_queues 3).pop).2) := by
  unfold work_queue_t.pop_task
  exact scanTake_cons_some _ _ _ _ _ h3

theorem pop_task_at2 {α : Type} [Inhabited α] (q : work_queue_t α) (a : α)
    (h3 : ((q.task_queues 3).pop).1 = none)
    (h2 : ((q.task_queues 2).pop).1 = some a) :
    q.pop_task = (some a, update_queue q 2 ((q.task_queues 2).pop).2) := by
  unfold work_queue_t.pop_task
  rw [scanTake_cons_none _ _ _ _ h3 (pop_none_state _ h3)]
  exact scanTake_cons_some _ _ _ _ _ h2

theorem pop_task_at1 {α : Type} [Inhabited α] (q : work_queue_t α) (a : α)
    (h3 : ((q.task_queues 3).pop).1 = none)
    (h2 : ((q.task_queues 2).pop).1 = none)
    (h1 : ((q.task_queues 1).pop).1 = some a) :
    q.pop_task = (some a, update_queue q 1 ((q.task_queues 1).pop).2) := by
  unfold work_queue_t.pop_task
  rw [scanTake_cons_none _ _ _ _ h3 (pop_none_state _ h3),
    scanTake_cons_none _ _ _ _ h2 (pop_none_state _ h2)]
  exact scanTake_cons_some _ _ _ _ _ h1

theorem pop_task_at0 {α : Type} [Inhabited α] (q : work_queue_t α) (a : α)
    (h3 : ((q.task_queues 3).pop).1 = none)
    (h2 : ((q.task_queues 2).pop).1 = none)
    (h1 : ((q.task_queues 1).pop).1 = none)
    (h0 : ((q.task_queues 0).pop).1 = some a) :
    q.pop_task = (some a, update_queue q 0 ((q.task_queues 0).pop).2) := by
  unfold work_queue_t.pop_task
  rw [scanTake_cons_none _ _ _ _ h3 (pop_none_state _ h3),
    scanTake_cons_none _ _ _ _ h2 (pop_none_state _ h2),
    scanTake_cons_none _ _ _ _ h1 (pop_none_state _ h1)]
  exact scanTake_cons_some _ _ _ _ _ h0

theorem pop_task_none_iff {α : Type} [Inhabited α] (q : work_queue_t α) :
    (q.pop_task).1 = none ↔
      ∀ p : Fin 4, ((q.task_queues p).pop).1 = none := by
  constructor
  · intro h
    rcases h3 : ((q.task_queues 3).pop).1 with _ | a
    · rcases h2 : ((q.task_queues 2).pop).1 with _ | a
      · rcases h1 : ((q.task_queues 1).pop).1 with _ | a
        · rcases h0 : ((q.task_queues 0).pop).1 with _ | a
          · intro p
            fin_cases p <;> assumption
          · rw [pop_task_at0 q a h3 h2 h1 h0] at h
            simp at h
        · rw [pop_task_at1 q a h3 h2 h1] at h
          simp at h
      · rw [pop_task_at2 q a h3 h2] at h
        simp at h
    · rw [pop_task_at3 q a h3] at h
      simp at h
  · intro h
    rw [pop_task_all_none q (h 3) (h 2) (h 1) (h 0)]

theorem steal_task_all_none {α : Type} [Inhabited α] (q : work_queue_t α)
    (h3 : ((q.task_queues 3).steal).1 = none)
    (h2 : ((q.task_queues 2).steal).1 = none)
    (h1 : ((q.task_queues 1).steal).1 = none)
    (h0 : ((q.task_queues 0).steal).1 = none) :
    q.steal_task = (none, q) := by
  unfold work_queue_t.steal_task
  rw [scanTake_cons_none _ _ _ _ h3 (steal_none_state _ h3),
    scanTake_cons_none _ _ _ _ h2 (steal_none_state _ h2),
    scanTake_cons_none _ _ _ _ h1 (steal_none_state _ h1),
    scanTake_cons_none _ _ _ _ h0 (steal_none_state _ h0)]
  rfl

theorem steal_task_at3 {α : Type} [Inhabited α] (q : work_queue_t α) (a : α)
    (h3 : ((q.task_queues 3).steal).1 = some a) :
    q.steal_task = (some a, update_queue q 3 ((q.task_queues 3).steal).2) := by
  unfold work_queue_t.steal_task
  exact scanTake_cons_some _ _ _ _ _ h3

theorem steal_task_at2 {α : Type} [Inhabited α] (q : work_queue_t α) (a : α)
    (h3 : ((q.task_queues 3).steal).1 = none)
    (h2 : ((q.task_queues 2).steal).1 = some a) :
    q.steal_task = (some a, update_queue q 2 ((q.task_queues 2).steal).2) := by
  unfold work_queue_t.steal_task
  rw [scanTake_cons_none _ _ _ _ h3 (steal_none_state _ h3)]
  exact scanTake_cons_some _ _ _ _ _ h2

theorem steal_task_at1 {α : Type} [Inhabited α] (q : work_queue_t α) (a : α)
    (h3 : ((q.task_queues 3).steal).1 = none)
    (h2 : ((q.task_queues 2).steal).1 = none)
    (h1 : ((q.task_queues 1).steal).1 = some a) :
    q.steal_task = (some a, update_queue q 1 ((q.task_queues 1).steal).2) := by
  unfold work_queue_t.steal_task
  rw [scanTake_cons_none _ _ _ _ h3 (steal_none_state _ h3),
    scanTake_cons_none _ _ _ _ h2 (steal_none_state _ h2)]
  exact scanTake_cons_some _ _ _ _ _ h1

theorem steal_task_at0 {α : Type} [Inhabited α] (q : work_queue_t α) (a : α)
    (h3 : ((q.task_queues 3).steal).1 = none)
    (h2 : ((q.task_queues 2).steal).1 = none)
    (h1 : ((q.task_queues 1).steal).1 = none)
    (h0 : ((q.task_queues 0).steal).1 = some a) :
    q.steal_task = (some a, update_queue q 0 ((q.task_queues 0).steal).2) := by
  unfold work_queue_t.steal_task
  rw [scanTake_cons_none _ _ _ _ h3 (steal_none_state _ h3),
    scanTake_cons_none _ _ _ _ h2 (steal_none_state _ h2),
    scanTake_cons_none _ _ _ _ h1 (steal_none_state _ h1)]
  exact scanTake_cons_some _ _ _ _ _ h0

theorem steal_task_none_iff {α : Type} [Inhabited α] (q : work_queue_t α) :
    (q.steal_task).1 = none ↔
      ∀ p : Fin 4, ((q.task_queues p).steal).1 = none := by
  constructor
  · intro h
    rcases h3 : ((q.task_queues 3).steal).1 with _ | a
    · rcases h2 : ((q.task_queues 2).steal).1 with _ | a
      · rcases h1 : ((q.task_queues 1).steal).1 with _ | a
        · rcases h0 : ((q.task_queues 0).steal).1 with _ | a
          · intro p
            fin_cases p <;> assumption
          · rw [steal_task_at0 q a h3 h2 h1 h0] at h
            simp at h
        · rw [steal_task_at1 q a h3 h2 h1] at h
          simp at h
      · rw [steal_task_at2 q a h3 h2] at h
        simp at h
    · rw [steal_task_at3 q a h3] at h
      simp at h
  · intro h
    rw [steal_task_all_none q (h 3) (h 2) (h 1) (h 0)]

/-! ### Claim C7 -/

/-- C7: `steal` returns a task only through the successful CAS advancing
`top` from `t` to `t + 1`; whenever it returns empty — in the sequential
model exactly when the deque is observed empty, `top ≥ bottom`, since a CAS
that is reached always succeeds — the deque (`top`, `bottom`, capacity and
every slot) is exactly as it was before the call. -/
theorem C7_steal_commit (α : Type) [Inhabited α] (d : lock_free_deque α) :
    ((d.steal).1 = none ↔ d.bottom ≤ d.top) ∧
    ((d.steal).1 = none → (d.steal).2 = d) ∧
    (∀ a, (d.steal).1 = some a →
      (d.steal).2 = { d with top := d.top + 1 } ∧ d.top < d.bottom) := by
  refine ⟨steal_fst_none_iff d, steal_none_state d, fun a h => ?_⟩
  refine ⟨steal_some_state d a h, ?_⟩
  by_contra hc
  rw [(steal_fst_none_iff d).mpr (by omega)] at h
  simp at h

/-- A deque holding one stealable task. -/
def c7_d : lock_free_deque Nat :=
  { capacity := 2, buffer := [7, 8], top := 0, bottom := 1 }

theorem C7_steal_commit_witness :
    ((initDeque Nat).steal).2 = initDeque Nat ∧
    ((c7_d.steal).2 = { c7_d with top := c7_d.top + 1 } ∧
      c7_d.top < c7_d.bottom) :=
  ⟨(C7_steal_commit Nat (initDeque Nat)).2.1 (by decide),
   (C7_steal_commit Nat c7_d).2.2 7 (by decide)⟩

/-! ### Claim C6 -/

/-- C6: `pop_task` (and likewise `steal_task`) scans the four sub-deques from
CRITICAL (3) down to LOW (0) and returns the task from the first sub-deque
whose pop (resp. steal) succeeds; it returns empty exactly when all four
fail, leaving the queue unchanged; hence whenever the CRITICAL sub-deque has
a task available, the scan takes it — in particular a CRITICAL task is
selected before a LOW one waiting in the same queue. -/
theorem C6_priority_scan (α : Type) [Inhabited α] (q : work_queue_t α) :
    ((q.pop_task).1 = none ↔ ∀ p : Fin 4, ((q.task_queues p).pop).1 = none) ∧
    ((q.pop_task).1 = none → (q.pop_task).2 = q) ∧
    (∀ a, ((q.task_queues 3).pop).1 = some a →
      q.pop_task = (some a, update_queue q 3 ((q.task_queues 3).pop).2)) ∧
    (∀ a, ((q.task_queues 3).pop).1 = none →
      ((q.task_queues 2).pop).1 = some a →
      q.pop_task = (some a, update_queue q 2 ((q.task_queues 2).pop).2)) ∧
    (∀ a, ((q.task_queues 3).pop).1 = none →
      ((q.task_queues 2).pop).1 = none →
      ((q.task_queues 1).pop).1 = some a →
      q.pop_task = (some a, update_queue q 1 ((q.task_queues 1).pop).2)) ∧
    (∀ a, ((q.task_queues 3).pop).1 = none →
      ((q.task_queues 2).pop).1 = none →
      ((q.task_queues 1).pop).1 = none →
      ((q.task_queues 0).pop).1 = some a →
      q.pop_task = (some a, update_queue q 0 ((q.task_queues 0).pop).2)) ∧
    (0 < (q.task_queues 3).bottom - (q.task_queues 3).top →
      (q.pop_task).1 = ((q.task_queues 3).pop).1 ∧ (q.pop_task).1 ≠ none) ∧
    ((q.steal_task).1 = none ↔
      ∀ p : Fin 4, ((q.task_queues p).steal).1 = none) ∧
    ((q.steal_task).1 = none → (q.steal_task).2 = q) ∧
    (∀ a, ((q.task_queues 3).steal).1 = some a →
      q.steal_task = (some a, update_queue q 3 ((q.task_queues 3).steal).2)) ∧
    (∀ a, ((q.task_queues 3).steal).1 = none →
      ((q.task_queues 2).steal).1 = some a →
      q.steal_task = (some a, update_queue q 2 ((q.task_queues 2).steal).2)) ∧
    (∀ a, ((q.task_queues 3).steal).1 = none →
      ((q.task_queues 2).steal).1 = none →
      ((q.task_queues 1).steal).1 = some a →
      q.steal_task = (some a, update_queue q 1 ((q.task_queues 1).steal).2)) ∧
    (∀ a, ((q.task_queues 3).steal).1 = none →
      ((q.task_queues 2).steal).1 = none →
      ((q.task_queues 1).steal).1 = none →
      ((q.task_queues 0).steal).1 = some a →
      q.steal_task = (some a, update_queue q 0 ((q.task_queues 0).steal).2)) ∧
    (0 < (q.task_queues 3).bottom - (q.task_queues 3).top →
      (q.steal_task).1 = ((q.task_queues 3).steal).1 ∧
      (q.steal_task).1 ≠ none) := by
  refine ⟨pop_task_none_iff q, ?_, ?_, ?_, ?_, ?_, ?_,
    steal_task_none_iff q, ?_, ?_, ?_, ?_, ?_, ?_⟩
  · intro h
    have hall := (pop_task_none_iff q).mp h
    rw [pop_task_all_none q (hall 3) (hall 2) (hall 1) (hall 0)]
  · intro a h3
    exact pop_task_at3 q a h3
  · intro a h3 h2
    exact pop_task_at2 q a h3 h2
  · intro a h3 h2 h1
    exact pop_task_at1 q a h3 h2 h1
  · intro a h3 h2 h1 h0
    exact pop_task_at0 q a h3 h2 h1 h0
  · intro hpos
    obtain ⟨a, ha⟩ := pop_some_of_pos _ hpos
    rw [pop_task_at3 q a ha, ha]
    simp
  · intro h
    have hall := (steal_task_none_iff q).mp h
    rw [steal_task_all_none q (hall 3) (hall 2) (hall 1) (hall 0)]
  · intro a h3
    exact steal_task_at3 q a h3
  · intro a h3 h2
    exact steal_task_at2 q a h3 h2
  · intro a h3 h2 h1
    exact steal_task_at1 q a h3 h2 h1
  · intro a h3 h2 h1 h0
    exact steal_task_at0 q a h3 h2 h1 h0
  · intro hpos
    obtain ⟨a, ha⟩ := steal_some_of_pos _ hpos
    rw [steal_task_at3 q a ha, ha]
    simp

/-- A work queue holding a CRITICAL task (30) and a LOW task (11). -/
def c6_q : work_queue_t Nat :=
  ((initWorkQueue Nat).push_task 3 30).push_task 0 11

theorem C6_priority_scan_witness :
    ((c6_q.pop_task).1 = ((c6_q.task_queues 3).pop).1 ∧
      (c6_q.pop_task).1 ≠ none) ∧
    ((c6_q.steal_task).1 = ((c6_q.task_queues 3).steal).1 ∧
      (c6_q.steal_task).1 ≠ none) :=
  ⟨(C6_priority_scan Nat c6_q).2.2.2.2.2.2.1 (by decide),
   (C6_priority_scan Nat c6_q).2.2.2.2.2.2.2.2.2.2.2.2.2 (by decide)⟩

/-! ### Claim C5 -/

/-- The deque after the single push of the counterexample run. -/
def c5_d : lock_free_deque Nat := (initDeque Nat).push 7

/-- C5 fails on the code: from a fresh deque, one `push` followed by one
`pop` hits the last-element CAS path, which returns the task without
restoring `bottom = b + 1`; the resulting quiescent state has
`bottom - top = -1`, outside `[0, capacity]`, while zero tasks are live. -/
theorem C5_invariant_broken :
    (c5_d.pop).1 = some 7 ∧
    ((c5_d.pop).2).bottom - ((c5_d.pop).2).top = -1 ∧
    ¬(0 ≤ ((c5_d.pop).2).bottom - ((c5_d.pop).2).top) := by
  decide

/-! ### Claim C2 -/

/-- A one-worker scheduler (`hardware_concurrency = 1`). -/
def c2_s0 : system_scheduler Nat := mk_scheduler Nat 1 priority_t.NORMAL 0

/-- State after the first submission (task 10). -/
def c2_s1 : system_scheduler Nat :=
  (c2_s0.schedule 10 priority_t.NORMAL).getD c2_s0

/-- The worker pops its own queue (worker_loop, cpp line 136). -/
def c2_pop : Option Nat × work_queue_t Nat :=
  (c2_s1.work_queues.getD 0 (initWorkQueue Nat)).pop_task

/-- State after the worker's pop. -/
def c2_s2 : system_scheduler Nat :=
  { c2_s1 with work_queues := c2_s1.work_queues.set 0 c2_pop.2 }

/-- State after the second submission (task 20). -/
def c2_s3 : system_scheduler Nat :=
  (c2_s2.schedule 20 priority_t.NORMAL).getD c2_s2

/-- C2 fails on the code: both submissions happen before any stop flag is
set and both are accepted, the worker executes task 10, yet after task 20 is
pushed every queue reports empty and neither `pop_task` nor `steal_task` can
ever return task 20 — the corrupted `bottom`/`top` pair left by the
last-element pop swallows the next push, so the worker exit condition
(stop flag set and all queues empty) holds while task 20 was never executed. -/
theorem C2_lost_task :
    (c2_s0.schedule 10 priority_t.NORMAL).isSome = true ∧
    c2_pop.1 = some 10 ∧
    (c2_s2.schedule 20 priority_t.NORMAL).isSome = true ∧
    c2_s3.work_queues.all work_queue_t.empty = true ∧
    ((c2_s3.work_queues.getD 0 (initWorkQueue Nat)).pop_task).1 = none ∧
    ((c2_s3.work_queues.getD 0 (initWorkQueue Nat)).steal_task).1 = none := by
  decide

/-! ### Claim C10 -/

/-- C10: `operator==` (cpp lines 69-71) compares no state at all — it returns
`true` for every pair of schedulers, whatever their priorities, thread counts
or queue contents. -/
theorem C10_eq_always_true (α : Type) (a b : system_scheduler α) :
    scheduler_beq a b = true :=
  rfl

/-! ### Claim C4 -/

/-- C4: once the stop flag is set, `schedule` returns immediately (cpp line
82): the call succeeds, the task is not enqueued, and the whole scheduler
state — in particular every work queue — is exactly unchanged. -/
theorem C4_drop_after_stop (α : Type) [Inhabited α] (s : system_scheduler α)
    (task : α) (priority : priority_t) (h : s.stop_flag = true) :
    s.schedule task priority = some s := by
  simp [system_scheduler.schedule, h]

/-- A scheduler that has been stopped via `set_stopped`. -/
def c4_s : system_scheduler Nat :=
  (mk_scheduler Nat 2 priority_t.NORMAL 0).set_stopped

theorem C4_drop_after_stop_witness :
    c4_s.schedule 7 priority_t.LOW = some c4_s :=
  C4_drop_after_stop Nat c4_s 7 priority_t.LOW rfl

/-! ### Claim C3 -/

/-- A scheduler whose configured default priority is HIGH. -/
def c3_s0 : system_scheduler Nat := mk_scheduler Nat 1 priority_t.HIGH 0

/-- The state after a `schedule` call that omits the priority argument. -/
def c3_s1 : system_scheduler Nat := (c3_s0.schedule_default 5).getD c3_s0

/-- C3 fails on the code: with the scheduler's configured default priority
HIGH, a `schedule` call omitting the priority argument lands the task in the
NORMAL sub-deque (the hard-coded parameter default, hpp line 222) and the
HIGH sub-deque stays empty — the task is not enqueued at the configured
default. -/
theorem C3_default_priority_counterexample :
    c3_s0.get_priority = priority_t.HIGH ∧
    (c3_s0.schedule_default 5).isSome = true ∧
    ((c3_s1.work_queues.getD 0 (initWorkQueue Nat)).task_queues
      priority_t.HIGH.toFin).size = 0 ∧
    ((c3_s1.work_queues.getD 0 (initWorkQueue Nat)).task_queues
      priority_t.NORMAL.toFin).size = 1 := by
  decide

/-- C3 amended: a `schedule` call that omits the priority argument enqueues
the task at priority NORMAL — the hard-coded default argument of the
declaration — regardless of the scheduler's configured default priority:
the omitted-argument call coincides with an explicit NORMAL call, a
successful submission pushes into the NORMAL sub-deque of the chosen queue,
and changing the configured default via `set_priority` commutes with
`schedule` without affecting placement. -/
theorem C3_omitted_priority_is_NORMAL (α : Type) [Inhabited α] :
    (∀ (s : system_scheduler α) (t : α),
      s.schedule_default t = s.schedule t priority_t.NORMAL) ∧
    (∀ (s : system_scheduler α) (t : α) (s2 : system_scheduler α),
      s.stop_flag = false → s.schedule_default t = some s2 →
      ∃ chosen, s2.work_queues = s.work_queues.set chosen
        ((s.work_queues.getD chosen (initWorkQueue α)).push_task
          priority_t.NORMAL.toFin t)) ∧
    (∀ (s : system_scheduler α) (p : priority_t) (t : α) (pr : priority_t),
      (s.set_priority p).schedule t pr =
        (s.schedule t pr).map fun s2 => s2.set_priority p) := by
  refine ⟨fun s t => rfl, ?_, ?_⟩
  · intro s t s2 hstop h
    unfold system_scheduler.schedule_default system_scheduler.schedule at h
    simp only [hstop, Bool.false_eq_true, if_false] at h
    rcases hfa : find_active s.work_queues s.num_queues
        (s.next_queue % s.num_queues) (s.num_queues + 1) with _ | chosen <;>
      rw [hfa] at h
    · simp at h
    · simp only [Option.some.injEq] at h
      exact ⟨chosen, by rw [← h]⟩
  · intro s p t pr
    unfold system_scheduler.schedule system_scheduler.set_priority
    by_cases hs : s.stop_flag
    · simp [hs]
    · simp only [hs, Bool.false_eq_true, if_false]
      rcases hfa : find_active s.work_queues s.num_queues
          (s.next_queue % s.num_queues) (s.num_queues + 1) with _ | chosen <;>
        simp [hfa]

/-- A NORMAL-priority one-worker scheduler. -/
def c3w_s : system_scheduler Nat := mk_scheduler Nat 1 priority_t.NORMAL 0

/-- The state after submitting task 9 with the priority argument omitted. -/
def c3w_s2 : system_scheduler Nat := (c3w_s.schedule_default 9).getD c3w_s

theorem C3_omitted_priority_is_NORMAL_witness :
    ∃ chosen, c3w_s2.work_queues = c3w_s.work_queues.set chosen
      ((c3w_s.work_queues.getD chosen (initWorkQueue Nat)).push_task
        priority_t.NORMAL.toFin 9) :=
  (C3_omitted_priority_is_NORMAL Nat).2.1 c3w_s 9 c3w_s2 rfl rfl

/-! ### Claim C9 -/

theorem schedule_atc {α : Type} [Inhabited α] (s : system_scheduler α)
    (t : α) (p : priority_t) (s2 : system_scheduler α)
    (h : s.schedule t p = some s2) :
    s2.active_thread_count = s.active_thread_count := by
  unfold system_scheduler.schedule at h
  by_cases hs : s.stop_flag
  · simp only [hs, if_true, Option.some.injEq] at h
    rw [← h]
  · simp only [hs, Bool.false_eq_true, if_false] at h
    rcases hfa : find_active s.work_queues s.num_queues
        (s.next_queue % s.num_queues) (s.num_queues + 1) with _ | chosen <;>
      rw [hfa] at h
    · simp at h
    · simp only [Option.some.injEq] at h
      rw [← h]

theorem foldlM_atc {α β : Type} [Inhabited α]
    (g : system_scheduler α → β → Option (system_scheduler α))
    (hg : ∀ s x s2, g s x = some s2 →
      s2.active_thread_count = s.active_thread_count) :
    ∀ (l : List β) (s s2 : system_scheduler α),
      l.foldlM g s = some s2 →
      s2.active_thread_count = s.active_thread_count := by
  intro l
  induction l with
  | nil =>
    intro s s2 h
    simp only [List.foldlM_nil, pure, Option.some.injEq] at h
    rw [← h]
  | cons x xs ih =>
    intro s s2 h
    rw [List.foldlM_cons] at h
    rcases hx : g s x with _ | s1 <;> rw [hx] at h
    · simp at h
    · have h2 : xs.foldlM g s1 = some s2 := h
      rw [ih s1 s2 h2, hg s x s1 hx]

theorem applyOp_atc {α : Type} [Inhabited α] (s : system_scheduler α)
    (op : SchedOp α) (s2 : system_scheduler α)
    (h : applyOp s op = some s2) :
    s2.active_thread_count = s.active_thread_count := by
  cases op with
  | sched t p => exact schedule_atc s t p s2 h
  | bulk n mk p =>
    unfold applyOp system_scheduler.bulk_schedule at h
    refine foldlM_atc _ ?_ _ s s2 h
    intro s' x s2' h'
    split at h'
    · exact schedule_atc s' _ _ s2' h'
    · simp only [pure, Option.some.injEq] at h'
      rw [← h']
  | setPriority p =>
    simp only [applyOp, Option.some.injEq] at h
    rw [← h]
    rfl
  | setStopped =>
    simp only [applyOp, Option.some.injEq] at h
    rw [← h]
    rfl
  | setError =>
    simp only [applyOp, Option.some.injEq] at h
    rw [← h]
    rfl
  | workerPop i =>
    simp only [applyOp, Option.some.injEq] at h
    rw [← h]
  | workerSteal i =>
    simp only [applyOp, Option.some.injEq] at h
    rw [← h]

/-- C9: `get_active_thread_count` is constant over the scheduler's life: the
constructor fixes it to `thread_count` if non-zero, else
`hardware_concurrency()`, and no interface operation — `schedule`,
`bulk_schedule`, `set_priority`, `set_stopped`, `set_error`, or a worker's
queue pops and steals — ever changes it. -/
theorem C9_thread_count_invariant (α : Type) [Inhabited α]
    (hw tc : Nat) (p : priority_t) (ops : List (SchedOp α))
    (s2 : system_scheduler α)
    (h : runOps (mk_scheduler α hw p tc) ops = some s2) :
    s2.get_active_thread_count = (if 0 < tc then tc else hw) ∧
    s2.get_active_thread_count =
      (mk_scheduler α hw p tc).get_active_thread_count := by
  have hpres := foldlM_atc applyOp applyOp_atc ops (mk_scheduler α hw p tc) s2 h
  exact ⟨hpres, hpres⟩

/-- A short run: submit, stop, submit again (dropped). -/
def c9_ops : List (SchedOp Nat) :=
  [SchedOp.sched 3 priority_t.LOW, SchedOp.setStopped,
    SchedOp.sched 4 priority_t.HIGH]

/-- The state this run reaches from a two-worker scheduler. -/
def c9_s2 : system_scheduler Nat :=
  (runOps (mk_scheduler Nat 2 priority_t.NORMAL 0) c9_ops).getD
    (mk_scheduler Nat 2 priority_t.NORMAL 0)

theorem C9_thread_count_invariant_witness :
    c9_s2.get_active_thread_count = (if 0 < 0 then 0 else 2) ∧
    c9_s2.get_active_thread_count =
      (mk_scheduler Nat 2 priority_t.NORMAL 0).get_active_thread_count :=
  C9_thread_count_invariant Nat 2 0 priority_t.NORMAL c9_ops c9_s2 rfl

/-! ### Counting lemmas for the round-robin walk -/

theorem hitCount_add (c N i m : Nat) :
    ∀ l, hitCount c N i (m + l) = hitCount c N i m + hitCount (c + m) N i l := by
  intro l
  induction l with
  | zero => simp [hitCount]
  | succ l ih =>
    have h1 : m + (l + 1) = (m + l) + 1 := by omega
    rw [h1]
    simp only [hitCount]
    rw [ih, ← Nat.add_assoc c m l, Nat.add_assoc]

theorem unique_hit (a N i : Nat) (hN : 0 < N) (hi : i < N) :
    ∀ t, t < N → (((a + t) % N = i) ↔ t = (i + N - a % N) % N) := by
  have hamod : a % N < N := Nat.mod_lt _ hN
  have ht0lt : (i + N - a % N) % N < N := Nat.mod_lt _ hN
  have hstep1 : Nat.ModEq N (a + (i + N - a % N) % N)
      (a % N + (i + N - a % N)) :=
    Nat.ModEq.add (Nat.mod_modEq a N).symm (Nat.mod_modEq (i + N - a % N) N)
  have hYeq : a % N + (i + N - a % N) = i + N := by omega
  rw [hYeq] at hstep1
  have h3 : Nat.ModEq N (i + N) i := Nat.add_mod_right i N
  have hhit : (a + (i + N - a % N) % N) % N = i := by
    have h4 : (a + (i + N - a % N) % N) % N = i % N := hstep1.trans h3
    rw [h4, Nat.mod_eq_of_lt hi]
  intro t ht
  constructor
  · intro h
    have h4 : (a + t) % N = (a + (i + N - a % N) % N) % N := by rw [h, hhit]
    have h5 := Nat.ModEq.add_left_cancel' a (h4 : Nat.ModEq N _ _)
    have h6 : t % N = (i + N - a % N) % N % N := h5
    rw [Nat.mod_eq_of_lt ht, Nat.mod_eq_of_lt ht0lt] at h6
    exact h6
  · intro h
    rw [h]
    exact hhit

theorem count_unique_aux (c N i t0 : Nat)
    (huniq : ∀ t, t < N → (((c + t) % N = i) ↔ t = t0)) :
    ∀ m, m ≤ N → hitCount c N i m = if t0 < m then 1 else 0 := by
  intro m
  induction m with
  | zero => intro _; simp [hitCount]
  | succ m ih =>
    intro hm
    simp only [hitCount]
    rw [ih (by omega)]
    by_cases hcase : (c + m) % N = i
    · have hm0 : m = t0 := (huniq m (by omega)).mp hcase
      rw [if_pos hcase]
      split_ifs <;> omega
    · rw [if_neg hcase]
      have hne : m ≠ t0 := fun he => hcase ((huniq m (by omega)).mpr he)
      split_ifs <;> omega

theorem hitCount_block (a N i : Nat) (hN : 0 < N) (hi : i < N) :
    hitCount a N i N = 1 := by
  have ht0lt : (i + N - a % N) % N < N := Nat.mod_lt _ hN
  rw [count_unique_aux a N i _ (unique_hit a N i hN hi) N (Nat.le_refl N),
    if_pos ht0lt]

theorem hitCount_mul (c N i k : Nat) (hN : 0 < N) (hi : i < N) :
    hitCount c N i (k * N) = k := by
  induction k with
  | zero => simp [hitCount]
  | succ k ih =>
    have h1 : (k + 1) * N = k * N + N := by ring
    rw [h1, hitCount_add, ih, hitCount_block (c + k * N) N i hN hi]

/-! ### List getD helpers -/

theorem getD_set_self {β : Type} (l : List β) (n : Nat) (a d : β)
    (h : n < l.length) : (l.set n a).getD n d = a := by
  rw [List.getD_eq_getElem?_getD, List.getElem?_set_self (by simpa using h)]
  rfl

theorem getD_set_other {β : Type} (l : List β) (n m : Nat) (a d : β)
    (h : n ≠ m) : (l.set n a).getD m d = l.getD m d := by
  rw [List.getD_eq_getElem?_getD, List.getElem?_set_ne h,
    ← List.getD_eq_getElem?_getD]

theorem getD_mem_of_lt {β : Type} (l : List β) (n : Nat) (d : β)
    (h : n < l.length) : l.getD n d ∈ l := by
  rw [List.getD_eq_getElem?_getD, List.getElem?_eq_getElem h]
  exact List.getElem_mem h

/-! ### push effect lemmas -/

theorem push_bottom {α : Type} [Inhabited α] (d : lock_free_deque α) (t : α) :
    (d.push t).bottom = d.bottom + 1 := by
  simp only [lock_free_deque.push]
  split_ifs <;> rfl

theorem push_task_active {α : Type} [Inhabited α] (q : work_queue_t α)
    (f : Fin 4) (t : α) : (q.push_task f t).active = q.active :=
  rfl

theorem push_task_same {α : Type} [Inhabited α] (q : work_queue_t α)
    (f : Fin 4) (t : α) :
    (q.push_task f t).task_queues f = (q.task_queues f).push t := by
  simp [work_queue_t.push_task, Function.update_same]

theorem push_task_other {α : Type} [Inhabited α] (q : work_queue_t α)
    (f g : Fin 4) (t : α) (h : g ≠ f) :
    (q.push_task f t).task_queues g = q.task_queues g := by
  simp [work_queue_t.push_task, Function.update_noteq h]

/-! ### Claim C8 -/

theorem schedule_step {α : Type} [Inhabited α] (s : system_scheduler α)
    (t : α) (p : priority_t)
    (hstop : s.stop_flag = false)
    (hact : ∀ q ∈ s.work_queues, q.active = true)
    (hnum : s.num_queues = s.work_queues.length)
    (hpos : 0 < s.num_queues)
    (hnq : s.next_queue + 1 < 2 ^ 64) :
    s.schedule t p = some { s with
      next_queue := s.next_queue + 1
      work_queues := s.work_queues.set (s.next_queue % s.num_queues)
        ((s.work_queues.getD (s.next_queue % s.num_queues)
          (initWorkQueue α)).push_task p.toFin t) } := by
  have hstart : s.next_queue % s.num_queues < s.work_queues.length := by
    rw [← hnum]
    exact Nat.mod_lt _ hpos
  have hactive : (s.work_queues.getD (s.next_queue % s.num_queues)
      (initWorkQueue α)).active = true :=
    hact _ (getD_mem_of_lt _ _ _ hstart)
  unfold system_scheduler.schedule
  simp only [hstop, Bool.false_eq_true, if_false, find_active, hactive, if_true]
  rw [Nat.mod_eq_of_lt hnq]

theorem scheduleAll_counts {α : Type} [Inhabited α] (p : priority_t) :
    ∀ (tasks : List α) (s : system_scheduler α),
      s.stop_flag = false →
      (∀ q ∈ s.work_queues, q.active = true) →
      s.num_queues = s.work_queues.length →
      0 < s.num_queues →
      s.next_queue + tasks.length < 2 ^ 64 →
      ∃ s2, scheduleAll s tasks p = some s2 ∧
        ∀ i, i < s.num_queues →
          ((s2.work_queues.getD i (initWorkQueue α)).task_queues p.toFin).bottom
            = ((s.work_queues.getD i (initWorkQueue α)).task_queues
                p.toFin).bottom
              + (hitCount s.next_queue s.num_queues i tasks.length : Int) ∧
          ∀ f : Fin 4, f ≠ p.toFin →
            (s2.work_queues.getD i (initWorkQueue α)).task_queues f
              = (s.work_queues.getD i (initWorkQueue α)).task_queues f := by
  intro tasks
  induction tasks with
  | nil =>
    intro s hstop hact hnum hpos hw
    refine ⟨s, rfl, fun i hi => ⟨?_, fun f hf => rfl⟩⟩
    simp [hitCount]
  | cons t ts ih =>
    intro s hstop hact hnum hpos hw
    have hnq : s.next_queue + 1 < 2 ^ 64 := by
      have := List.length_cons t ts
      omega
    have hstep := schedule_step s t p hstop hact hnum hpos hnq
    set chosen := s.next_queue % s.num_queues with hchosen
    set pushedQ := (s.work_queues.getD chosen (initWorkQueue α)).push_task
      p.toFin t with hpushedQ
    set s1 : system_scheduler α := { s with
      next_queue := s.next_queue + 1
      work_queues := s.work_queues.set chosen pushedQ } with hs1
    have hchlt : chosen < s.work_queues.length := by
      rw [← hnum]
      exact Nat.mod_lt _ hpos
    have hact1 : ∀ q ∈ s1.work_queues, q.active = true := by
      intro q hq
      rcases List.mem_or_eq_of_mem_set hq with hmem | heq
      · exact hact q hmem
      · rw [heq, hpushedQ, push_task_active]
        exact hact _ (getD_mem_of_lt _ _ _ hchlt)
    have hnum1 : s1.num_queues = s1.work_queues.length := by
      simp only [hs1, List.length_set]
      exact hnum
    have hw1 : s1.next_queue + ts.length < 2 ^ 64 := by
      have := List.length_cons t ts
      simp only [hs1]
      omega
    obtain ⟨s2, hrun, hcount⟩ := ih s1 hstop hact1 hnum1 hpos hw1
    have hrun' : scheduleAll s (t :: ts) p = some s2 := by
      unfold scheduleAll at hrun ⊢
      rw [List.foldlM_cons, hstep]
      exact hrun
    refine ⟨s2, hrun', fun i hi => ?_⟩
    obtain ⟨hb, hf⟩ := hcount i hi
    have hgetD : ∀ f : Fin 4,
        (s1.work_queues.getD i (initWorkQueue α)).task_queues f
          = if chosen = i
            then pushedQ.task_queues f
            else (s.work_queues.getD i (initWorkQueue α)).task_queues f := by
      intro f
      by_cases hc : chosen = i
      · rw [if_pos hc]
        simp only [hs1]
        rw [← hc, getD_set_self _ _ _ _ hchlt]
      · rw [if_neg hc]
        simp only [hs1]
        rw [getD_set_other _ _ _ _ _ hc]
    have hlen1 : hitCount s.next_queue s.num_queues i (ts.length + 1)
        = (if s.next_queue % s.num_queues = i then 1 else 0)
          + hitCount (s.next_queue + 1) s.num_queues i ts.length := by
      have h1 : ts.length + 1 = 1 + ts.length := by omega
      rw [h1, hitCount_add]
      simp [hitCount]
    constructor
    · rw [List.length_cons, hb, hgetD p.toFin, hlen1]
      by_cases hc : chosen = i
      · rw [if_pos hc, if_pos (by rw [← hchosen]; exact hc), hpushedQ,
          push_task_same, push_bottom, ← hc]
        push_cast
        ring
      · rw [if_neg hc, if_neg (by rw [← hchosen]; exact hc)]
        push_cast
        ring
    · intro f hfne
      rw [hf f hfne, hgetD f]
      by_cases hc : chosen = i
      · rw [if_pos hc, hpushedQ, push_task_other _ _ _ _ hfne, ← hc]
      · rw [if_neg hc]

/-- C8: starting from an otherwise-idle scheduler whose `N` queues are all
active and not stopped, `k·N` submissions at one priority deposit exactly
`k` tasks into each of the `N` queues — each queue's sub-deque for that
priority receives exactly `k` pushes (its `bottom` advances by `k`) and all
other sub-deques are untouched; placement is the fetch-add counter taken
modulo `N`. -/
theorem C8_round_robin (α : Type) [Inhabited α] (k : Nat)
    (s : system_scheduler α) (tasks : List α) (p : priority_t)
    (_hk : 1 ≤ k)
    (hlen : tasks.length = k * s.num_queues)
    (hstop : s.stop_flag = false)
    (hact : ∀ q ∈ s.work_queues, q.active = true)
    (hnum : s.num_queues = s.work_queues.length)
    (hpos : 0 < s.num_queues)
    (hwrap : s.next_queue + tasks.length < 2 ^ 64) :
    ∃ s2, scheduleAll s tasks p = some s2 ∧
      ∀ i, i < s.num_queues →
        ((s2.work_queues.getD i (initWorkQueue α)).task_queues p.toFin).bottom
          = ((s.work_queues.getD i (initWorkQueue α)).task_queues
              p.toFin).bottom + (k : Int) ∧
        ∀ f : Fin 4, f ≠ p.toFin →
          (s2.work_queues.getD i (initWorkQueue α)).task_queues f
            = (s.work_queues.getD i (initWorkQueue α)).task_queues f := by
  obtain ⟨s2, h1, h2⟩ :=
    scheduleAll_counts p tasks s hstop hact hnum hpos hwrap
  refine ⟨s2, h1, fun i hi => ?_⟩
  obtain ⟨hb, hf⟩ := h2 i hi
  refine ⟨?_, hf⟩
  rw [hb, hlen, hitCount_mul s.next_queue s.num_queues i k hpos hi]

/-- An idle two-queue scheduler. -/
def c8_s : system_scheduler Nat := mk_scheduler Nat 2 priority_t.NORMAL 0

theorem C8_round_robin_witness :
    ∃ s2, scheduleAll c8_s [5, 6] priority_t.NORMAL = some s2 ∧
      ∀ i, i < c8_s.num_queues →
        ((s2.work_queues.getD i (initWorkQueue Nat)).task_queues
            priority_t.NORMAL.toFin).bottom
          = ((c8_s.work_queues.getD i (initWorkQueue Nat)).task_queues
              priority_t.NORMAL.toFin).bottom + (1 : Int) ∧
        ∀ f : Fin 4, f ≠ priority_t.NORMAL.toFin →
          (s2.work_queues.getD i (initWorkQueue Nat)).task_queues f
            = (c8_s.work_queues.getD i (initWorkQueue Nat)).task_queues f :=
  C8_round_robin Nat 1 c8_s [5, 6] priority_t.NORMAL (by decide) rfl rfl
    (by decide) rfl (by decide) (by decide)

/-! ### Claim C1 -/

theorem chunk_start_succ (n numc k : Nat) :
    chunk_start n numc (k + 1) = chunk_end n numc k := by
  simp only [chunk_start, chunk_end]
  have hmul : (k + 1) * (n / numc) = k * (n / numc) + n / numc := by ring
  rw [hmul]
  split_ifs <;> omega

theorem chunk_len_eq (n numc k : Nat) :
    chunk_end n numc k - chunk_start n numc k
      = n / numc + (if k < n % numc then 1 else 0) := by
  simp only [chunk_end]
  generalize chunk_start n numc k = A
  generalize n / numc = B
  generalize n % numc = R
  split_ifs <;> omega

theorem chunk_start_succ' (n numc m : Nat) :
    chunk_start n numc (m + 1) =
      chunk_start n numc m + (chunk_end n numc m - chunk_start n numc m) := by
  rw [chunk_start_succ, chunk_len_eq]
  simp only [chunk_end]
  rw [Nat.add_assoc]

theorem chunks_join (n numc : Nat) :
    ∀ m, ((List.range m).map (chunk_indices n numc)).flatten =
      List.range' 0 (chunk_start n numc m) := by
  intro m
  induction m with
  | zero => simp [chunk_start]
  | succ m ih =>
    rw [List.range_succ, List.map_append, List.flatten_append, ih]
    simp only [List.map_cons, List.map_nil, List.flatten_cons,
      List.flatten_nil, List.append_nil]
    unfold chunk_indices
    have e1 := List.range'_append_1 0 (chunk_start n numc m)
      (chunk_end n numc m - chunk_start n numc m)
    rw [Nat.zero_add] at e1
    rw [e1, chunk_start_succ']
    congr 1
    omega

theorem chunk_start_full (n numc : Nat) (h : 0 < numc) :
    chunk_start n numc numc = n := by
  simp only [chunk_start]
  have h1 : n % numc < numc := Nat.mod_lt _ h
  have h2 := Nat.div_add_mod n numc
  omega

theorem num_chunks_eq (T n : Nat) (hn : 0 < n) (hT : T * 8 < 2 ^ 32) :
    num_chunks T n = max (T * 8) n := by
  unfold num_chunks
  rw [Nat.mod_eq_of_lt hT, if_neg (by omega)]

theorem flatten_filter_nonempty : ∀ L : List (List Nat),
    (L.filter fun c => !c.isEmpty).flatten = L.flatten := by
  intro L
  induction L with
  | nil => rfl
  | cons c L ih =>
    rcases c with _ | ⟨x, xs⟩
    · simp [List.filter_cons, ih]
    · simp [List.filter_cons, ih]

theorem bulk_chunks_getD (T n k : Nat) (h : k < num_chunks T n) :
    (bulk_chunks T n).getD k [] = chunk_indices n (num_chunks T n) k := by
  unfold bulk_chunks
  rw [List.getD_eq_getElem?_getD, List.getElem?_map, List.getElem?_range h]
  rfl

theorem chunk_indices_length (n numc k : Nat) :
    (chunk_indices n numc k).length
      = n / numc + (if k < n % numc then 1 else 0) := by
  unfold chunk_indices
  rw [List.length_range', chunk_len_eq]

/-- C1: for `n > 0`, `bulk_schedule(n, f, p)` partitions `[0, n)` into
`max(active_threads · 8, n)` contiguous chunks whose sizes are
`n / chunks` plus one extra for the first `n mod chunks` chunks (so sizes
differ by at most 1); each chunk iterates its indices in ascending order,
one closure is submitted per non-empty chunk, and the submitted closures
together invoke the indexed task at `0, 1, …, n - 1` exactly once each
(their concatenation is exactly `List.range n`, which has no duplicates).
The hypothesis `T * 8 < 2 ^ 32` rules out `uint32` overflow of the
`active_threads * 8` product. -/
theorem C1_bulk_partition (T n : Nat) (hn : 0 < n) (hT : T * 8 < 2 ^ 32) :
    (bulk_chunks T n).length = max (T * 8) n ∧
    (bulk_chunks T n).flatten = List.range n ∧
    (∀ k, k < max (T * 8) n →
      ((bulk_chunks T n).getD k []).length =
        n / max (T * 8) n + (if k < n % max (T * 8) n then 1 else 0)) ∧
    (∀ c ∈ bulk_chunks T n, c.Pairwise (· < ·)) ∧
    (bulk_submitted T n).flatten = List.range n := by
  have hnc := num_chunks_eq T n hn hT
  have hpos : 0 < num_chunks T n := by
    rw [hnc]
    omega
  have hflat : (bulk_chunks T n).flatten = List.range n := by
    unfold bulk_chunks
    rw [chunks_join n (num_chunks T n) (num_chunks T n),
      chunk_start_full _ _ hpos, ← List.range_eq_range']
  refine ⟨?_, hflat, ?_, ?_, ?_⟩
  · unfold bulk_chunks
    rw [List.length_map, List.length_range, hnc]
  · intro k hk
    rw [← hnc] at hk
    rw [bulk_chunks_getD T n k hk, chunk_indices_length, hnc]
  · intro c hc
    unfold bulk_chunks at hc
    obtain ⟨k, hk, rfl⟩ := List.mem_map.mp hc
    unfold chunk_indices
    exact List.pairwise_lt_range' _ _
  · rw [bulk_submitted, flatten_filter_nonempty, hflat]

theorem C1_bulk_partition_witness :
    (bulk_chunks 1 3).length = max (1 * 8) 3 ∧
    (bulk_chunks 1 3).flatten = List.range 3 :=
  ⟨(C1_bulk_partition 1 3 (by decide) (by decide)).1,
   (C1_bulk_partition 1 3 (by decide) (by decide)).2.1⟩

end Execution

